import Mathlib

/-
  Verification of the lisk-dex DEX coordinator module (src/index.js) against its
  natural-language specification.  The JavaScript source is shallowly embedded:
  plain numbers become rationals, the special values NaN and Infinity that arise
  in the price arithmetic are modelled by an explicit JsNum type with
  JavaScript's comparison and division semantics, and the stateful loops become
  structural recursions over explicit lists.
-/

namespace LiskDex

/-- The two chains a node instance operates over: one base, one quote. -/
inductive Chain where
  | base
  | quote
deriving DecidableEq

/-- A JavaScript number as used by the price arithmetic: NaN, the two
infinities, or a finite value (modelled exactly as a rational; every concrete
value appearing in the theorems below is exactly representable as an IEEE-754
double, so the rational model agrees with the source's arithmetic there). -/
inductive JsNum where
  | nan
  | posInf
  | negInf
  | num (q : ℚ)
deriving DecidableEq

/-- JavaScript division. Dividing a nonzero finite number by zero gives a
signed infinity, zero by zero gives NaN, and NaN propagates.  Dividing by an
undefined value coerces the divisor to NaN (see priceOfPeek). -/
def jsDiv : JsNum → JsNum → JsNum
  | JsNum.nan, _ => JsNum.nan
  | _, JsNum.nan => JsNum.nan
  | JsNum.posInf, JsNum.posInf => JsNum.nan
  | JsNum.posInf, JsNum.negInf => JsNum.nan
  | JsNum.negInf, JsNum.posInf => JsNum.nan
  | JsNum.negInf, JsNum.negInf => JsNum.nan
  | JsNum.posInf, JsNum.num q => if q < 0 then JsNum.negInf else JsNum.posInf
  | JsNum.negInf, JsNum.num q => if q < 0 then JsNum.posInf else JsNum.negInf
  | JsNum.num _, JsNum.posInf => JsNum.num 0
  | JsNum.num _, JsNum.negInf => JsNum.num 0
  | JsNum.num a, JsNum.num b =>
    if b = 0 then
      if a = 0 then JsNum.nan else if a < 0 then JsNum.negInf else JsNum.posInf
    else JsNum.num (a / b)

/-- JavaScript multiplication. Infinity times zero gives NaN and NaN
propagates. -/
def jsMul : JsNum → JsNum → JsNum
  | JsNum.nan, _ => JsNum.nan
  | _, JsNum.nan => JsNum.nan
  | JsNum.posInf, JsNum.posInf => JsNum.posInf
  | JsNum.posInf, JsNum.negInf => JsNum.negInf
  | JsNum.negInf, JsNum.posInf => JsNum.negInf
  | JsNum.negInf, JsNum.negInf => JsNum.posInf
  | JsNum.posInf, JsNum.num q =>
    if q = 0 then JsNum.nan else if q < 0 then JsNum.negInf else JsNum.posInf
  | JsNum.negInf, JsNum.num q =>
    if q = 0 then JsNum.nan else if q < 0 then JsNum.posInf else JsNum.negInf
  | JsNum.num q, JsNum.posInf =>
    if q = 0 then JsNum.nan else if q < 0 then JsNum.negInf else JsNum.posInf
  | JsNum.num q, JsNum.negInf =>
    if q = 0 then JsNum.nan else if q < 0 then JsNum.posInf else JsNum.negInf
  | JsNum.num a, JsNum.num b => JsNum.num (a * b)

/-- JavaScript Math.floor: NaN and the infinities are returned unchanged. -/
def jsFloor : JsNum → JsNum
  | JsNum.nan => JsNum.nan
  | JsNum.posInf => JsNum.posInf
  | JsNum.negInf => JsNum.negInf
  | JsNum.num q => JsNum.num (Int.floor q : ℤ)

/-- JavaScript loose comparison a less-or-equal b: any comparison involving NaN
is false. -/
def jsLe : JsNum → JsNum → Bool
  | JsNum.nan, _ => false
  | _, JsNum.nan => false
  | JsNum.negInf, _ => true
  | JsNum.posInf, JsNum.posInf => true
  | JsNum.posInf, _ => false
  | JsNum.num _, JsNum.posInf => true
  | JsNum.num _, JsNum.negInf => false
  | JsNum.num a, JsNum.num b => decide (a ≤ b)

/-- The price read off the order returned by peekAsks or peekBids.  When the
book side is empty the engine returns no order, the source destructures the
price out of an empty object, and every subsequent arithmetic operation
coerces the resulting undefined value to NaN. -/
def priceOfPeek : Option ℚ → JsNum
  | none => JsNum.nan
  | some q => JsNum.num q

/-- The verdict of the intent parser for the transfer classifications involved
in claims C2 and C5 (the fragment of orderTxn.type and orderTxn.reason that
those claims are about). -/
inductive Intent where
  | invalid (reason : String)
  | limitOrder (price : JsNum) (targetWalletAddress : String)
  | marketOrder (targetWalletAddress : String)
deriving DecidableEq

/-- Embedding of the source function isLimitOrderTooSmallToConvert: on the base
chain the amount is divided by the price and compared with the quote chain's
exchangeFeeBase, on the quote chain it is multiplied by the price and compared
with the base chain's exchangeFeeBase. -/
def isLimitOrderTooSmallToConvert (isBaseChain : Bool) (amount : ℚ) (price : JsNum)
    (quoteExchangeFeeBase baseExchangeFeeBase : ℚ) : Bool :=
  if isBaseChain then
    jsLe (jsFloor (jsDiv (JsNum.num amount) price)) (JsNum.num quoteExchangeFeeBase)
  else
    jsLe (jsFloor (jsMul (JsNum.num amount) price)) (JsNum.num baseExchangeFeeBase)

/-- Embedding of the source function isMarketOrderTooSmallToConvert: the best
price of the opposite book side is peeked at parse time; an empty side yields
an undefined price, which the arithmetic coerces to NaN. -/
def isMarketOrderTooSmallToConvert (isBaseChain : Bool) (amount : ℚ)
    (peekOppositePrice : Option ℚ) (quoteExchangeFeeBase baseExchangeFeeBase : ℚ) : Bool :=
  if isBaseChain then
    jsLe (jsFloor (jsDiv (JsNum.num amount) (priceOfPeek peekOppositePrice)))
      (JsNum.num quoteExchangeFeeBase)
  else
    jsLe (jsFloor (jsMul (JsNum.num amount) (priceOfPeek peekOppositePrice)))
      (JsNum.num baseExchangeFeeBase)

/-- Embedding of the limit branch of the intent parser in processBlock: the
price (the result of applying the JavaScript Number conversion to field2) is
rejected exactly when it is NaN, then an empty wallet field is rejected, then
the too-small-to-convert test runs, and otherwise the transfer is admitted as a
limit order. -/
def classifyLimitTransfer (isBaseChain : Bool) (amount : ℚ) (price : JsNum)
    (targetWalletAddress : String) (quoteExchangeFeeBase baseExchangeFeeBase : ℚ) : Intent :=
  if price = JsNum.nan then Intent.invalid "Invalid price"
  else if targetWalletAddress = "" then Intent.invalid "Invalid wallet address"
  else if isLimitOrderTooSmallToConvert isBaseChain amount price quoteExchangeFeeBase
      baseExchangeFeeBase then Intent.invalid "Too small to convert"
  else Intent.limitOrder price targetWalletAddress

/-- Embedding of the market branch of the intent parser in processBlock: an
empty wallet field is rejected, then the too-small-to-convert test runs against
the opposite book's best price, and otherwise the transfer is admitted as a
market order. -/
def classifyMarketTransfer (isBaseChain : Bool) (amount : ℚ) (targetWalletAddress : String)
    (peekOppositePrice : Option ℚ) (quoteExchangeFeeBase baseExchangeFeeBase : ℚ) : Intent :=
  if targetWalletAddress = "" then Intent.invalid "Invalid wallet address"
  else if isMarketOrderTooSmallToConvert isBaseChain amount peekOppositePrice
      quoteExchangeFeeBase baseExchangeFeeBase then Intent.invalid "Too small to convert"
  else Intent.marketOrder targetWalletAddress

/-- C2: the claim states that an inbound market order whose opposite book side
is empty at parse time is classified Invalid with reason Too small to convert.
The code does the opposite: with an empty book the peeked price is undefined,
the floored quotient is NaN, the NaN comparison with the fee base is false, so
isMarketOrderTooSmallToConvert returns false and the transfer is admitted as a
market order.  This theorem evaluates the embedded code at the failing input
(base-chain market transfer, amount 100, wallet w, empty ask book, quote
exchangeFeeBase 10). -/
theorem marketOrder_emptyBook_accepted :
    isMarketOrderTooSmallToConvert true 100 none 10 999 = false ∧
    classifyMarketTransfer true 100 "w" none 10 999 = Intent.marketOrder "w" := by
  constructor
  · rfl
  · rfl

/-- C5 counterexample: the claim states that a price field is accepted only
when it parses as a finite number strictly greater than zero, everything else
being rejected with reason Invalid price.  The code only rejects NaN: the
string 0 parses to the finite number 0, which is not strictly positive, yet on
the base chain the transfer is admitted as a limit order with price 0 (the
too-small test divides by zero, producing Infinity, and the NaN-free comparison
with the fee base is false). -/
theorem limitPrice_zero_accepted_counterexample :
    classifyLimitTransfer true 100 (JsNum.num 0) "w" 10 999 =
      Intent.limitOrder (JsNum.num 0) "w" ∧
    ¬ (0 : ℚ) < 0 := by
  constructor
  · rfl
  · exact lt_irrefl 0

/-- C5 amended: the limit-order price check rejects with reason Invalid price
exactly when the JavaScript Number conversion of field2 yields NaN; finite
nonpositive and infinite prices pass the price check (they may still be
rejected by the too-small-to-convert test).  An empty wallet field (field3) is
rejected with reason Invalid wallet address, this check running after the price
check. -/
theorem limitPrice_amended (isBaseChain : Bool) (amount : ℚ) (price : JsNum)
    (targetWalletAddress : String) (quoteExchangeFeeBase baseExchangeFeeBase : ℚ) :
    (classifyLimitTransfer isBaseChain amount price targetWalletAddress quoteExchangeFeeBase
        baseExchangeFeeBase = Intent.invalid "Invalid price" ↔ price = JsNum.nan) ∧
    (price ≠ JsNum.nan → targetWalletAddress = "" →
      classifyLimitTransfer isBaseChain amount price targetWalletAddress quoteExchangeFeeBase
        baseExchangeFeeBase = Intent.invalid "Invalid wallet address") := by
  constructor
  · constructor
    · intro h
      by_contra hnan
      rw [classifyLimitTransfer, if_neg hnan] at h
      by_cases hw : targetWalletAddress = ""
      · rw [if_pos hw] at h
        exact absurd (Intent.invalid.inj h) (by decide)
      · rw [if_neg hw] at h
        by_cases hs : isLimitOrderTooSmallToConvert isBaseChain amount price
            quoteExchangeFeeBase baseExchangeFeeBase = true
        · rw [if_pos hs] at h
          exact absurd (Intent.invalid.inj h) (by decide)
        · rw [if_neg hs] at h
          exact Intent.noConfusion h
    · intro h
      rw [classifyLimitTransfer, if_pos h]
  · intro hnan hw
    rw [classifyLimitTransfer, if_neg hnan, if_pos hw]

/-- Witness for the amended C5 theorem at a concrete input: a finite price with
an empty wallet field is classified Invalid wallet address. -/
theorem limitPrice_amended_witness :
    classifyLimitTransfer true 100 (JsNum.num 2) "" 10 999 =
      Intent.invalid "Invalid wallet address" :=
  (limitPrice_amended true 100 (JsNum.num 2) "" 10 999).2 (by decide) rfl

/-- The amount and timestamp of a t1 taker payout transaction authored by
processBlock after a match. -/
structure TakerPayout where
  amount : ℤ
  timestamp : ℤ
deriving DecidableEq

/-- Embedding of the taker-payout fragment of processBlock: when the match
result has a positive takeSize and the node is not passive, the payout base is
takeValue when the taker's target chain is the base chain and takeSize
otherwise; the exchangeFeeBase is subtracted first, then the exchangeFeeRate is
applied to the already-reduced amount, the result is floored, and the payout is
authored (at the taker order's timestamp plus one) only when it is strictly
positive. -/
def takerPayoutTxn (passiveMode : Bool) (takeSize takeValue : ℚ) (takerTargetIsBase : Bool)
    (takerExchangeFeeBase takerExchangeFeeRate : ℚ) (orderTimestamp : ℤ) : Option TakerPayout :=
  if takeSize ≤ 0 ∨ passiveMode = true then none
  else
    let amount0 : ℚ := if takerTargetIsBase then takeValue else takeSize
    let amount1 : ℚ := amount0 - takerExchangeFeeBase
    let amount2 : ℚ := amount1 - amount1 * takerExchangeFeeRate
    let takerAmount : ℤ := Int.floor amount2
    if takerAmount ≤ 0 then none
    else some { amount := takerAmount, timestamp := orderTimestamp + 1 }

/-- Unfolding equation for takerPayoutTxn with the sequential assignments of
the source inlined. -/
theorem takerPayoutTxn_eq (passiveMode : Bool) (takeSize takeValue : ℚ)
    (takerTargetIsBase : Bool) (feeBase feeRate : ℚ) (orderTimestamp : ℤ) :
    takerPayoutTxn passiveMode takeSize takeValue takerTargetIsBase feeBase feeRate
        orderTimestamp =
      if takeSize ≤ 0 ∨ passiveMode = true then none
      else if Int.floor (((if takerTargetIsBase then takeValue else takeSize) - feeBase) -
          ((if takerTargetIsBase then takeValue else takeSize) - feeBase) * feeRate) ≤ 0 then
        none
      else some
        { amount := Int.floor (((if takerTargetIsBase then takeValue else takeSize) - feeBase) -
            ((if takerTargetIsBase then takeValue else takeSize) - feeBase) * feeRate),
          timestamp := orderTimestamp + 1 } := rfl

/-- C1 counterexample: the claim states the authored taker amount equals
floor(A times (1 minus exchangeFeeRate) minus exchangeFeeBase).  At takeSize
100, fee base 10, fee rate one half (all exactly representable as doubles),
the code authors 45 (it subtracts the fee base before applying the rate) while
the claimed formula gives 40. -/
theorem takerPayout_formula_counterexample :
    takerPayoutTxn false 100 0 false 10 (1/2) 5 = some { amount := 45, timestamp := 6 } ∧
    (45 : ℤ) ≠ Int.floor ((100 : ℚ) * (1 - 1/2) - 10) := by
  constructor
  · rw [takerPayoutTxn_eq]
    norm_num
  · norm_num

/-- C1 amended: for a non-passive node and a match with takeSize strictly
positive, the authored t1 amount equals floor((A minus exchangeFeeBase) times
(1 minus exchangeFeeRate)) where A is takeValue when the taker's target chain
is the base chain and takeSize otherwise; the payout is authored exactly when
this amount is strictly positive, and its timestamp is the taker order's
timestamp plus one. -/
theorem takerPayout_amended (takeSize takeValue feeBase feeRate : ℚ) (takerTargetIsBase : Bool)
    (orderTimestamp : ℤ) (hpos : 0 < takeSize) :
    (∀ p, takerPayoutTxn false takeSize takeValue takerTargetIsBase feeBase feeRate
        orderTimestamp = some p →
      p.amount = Int.floor
        (((if takerTargetIsBase then takeValue else takeSize) - feeBase) * (1 - feeRate)) ∧
      0 < p.amount ∧ p.timestamp = orderTimestamp + 1) ∧
    (Int.floor (((if takerTargetIsBase then takeValue else takeSize) - feeBase) * (1 - feeRate))
        ≤ 0 →
      takerPayoutTxn false takeSize takeValue takerTargetIsBase feeBase feeRate
        orderTimestamp = none) := by
  have hguard : ¬ (takeSize ≤ 0 ∨ (false = true)) := by
    push_neg
    exact ⟨hpos, by simp⟩
  have hform :
      ((if takerTargetIsBase then takeValue else takeSize) - feeBase) -
        ((if takerTargetIsBase then takeValue else takeSize) - feeBase) * feeRate =
      ((if takerTargetIsBase then takeValue else takeSize) - feeBase) * (1 - feeRate) := by
    ring
  constructor
  · intro p hp
    rw [takerPayoutTxn_eq, if_neg hguard, hform] at hp
    by_cases hle : Int.floor
        (((if takerTargetIsBase then takeValue else takeSize) - feeBase) * (1 - feeRate)) ≤ 0
    · rw [if_pos hle] at hp
      exact Option.noConfusion hp
    · rw [if_neg hle] at hp
      have hp2 := Option.some.inj hp
      refine ⟨?_, ?_, ?_⟩
      · rw [← hp2]
      · rw [← hp2]
        exact lt_of_not_le hle
      · rw [← hp2]
  · intro hle
    rw [takerPayoutTxn_eq, if_neg hguard, hform, if_pos hle]

/-- Witness for the amended C1 theorem at the counterexample input: the
authored amount is 45, which matches floor((100 minus 10) times (1 minus one
half)), is strictly positive, and carries timestamp 6 = 5 + 1. -/
theorem takerPayout_amended_witness :
    (45 : ℤ) = Int.floor ((((100 : ℚ)) - 10) * (1 - 1/2)) ∧
    (0 : ℤ) < 45 ∧ (6 : ℤ) = 5 + 1 := by
  have h := (takerPayout_amended 100 0 10 (1/2) false 5 (by norm_num)).1
    { amount := 45, timestamp := 6 }
    (by
      rw [takerPayoutTxn_eq]
      norm_num)
  simpa using h

/-- A fetched block, tagged with the chain symbol it came from (the source
attaches chainSymbol to every block when fetching the two slices). -/
structure Blk where
  chainSymbol : Chain
  height : ℕ
  timestamp : ℤ
deriving DecidableEq

/-- Embedding of the per-tick block loop of processBlockchains.  The oracle
fork reports whether isInForkRecovery is set when the loop head is reached for
the i-th block, and fails reports whether processBlock throws on the i-th
block.  The result is the value of lastProcessedTimestamp when the loop is
left, paired with true when the loop was left normally or by the fork break
(so that control falls through to the final assignment) and false when a throw
made the tick return early.  During the loop lastProcessedTimestamp is
assigned only after a successful quote-chain block. -/
def blockLoop (fork fails : ℕ → Bool) :
    List Blk → ℕ → ℤ → ℤ × Bool
  | [], _, lastProcessedTimestamp => (lastProcessedTimestamp, true)
  | b :: rest, i, lastProcessedTimestamp =>
    if fork i then (lastProcessedTimestamp, true)
    else if fails i then (lastProcessedTimestamp, false)
    else blockLoop fork fails rest (i + 1)
      (if b.chainSymbol = Chain.quote then b.timestamp else lastProcessedTimestamp)

/-- The blocks that are successfully processed by the loop under the same two
oracles: the prefix up to the first fork break or throw. -/
def processedBlocks (fork fails : ℕ → Bool) : List Blk → ℕ → List Blk
  | [], _ => []
  | b :: rest, i =>
    if fork i then []
    else if fails i then []
    else b :: processedBlocks fork fails rest (i + 1)

/-- Embedding of one whole tick of processBlockchains from the start of the
block loop: after the loop, unless the tick returned early because of a throw,
lastProcessedTimestamp is unconditionally assigned the timestamp of the final
block of the merged list (the source guards ensure the list is nonempty when
the loop runs; the empty case falls back to the loop value). -/
def processTickLpt (fork fails : ℕ → Bool) (blocks : List Blk) (lpt0 : ℤ) : ℤ :=
  let r := blockLoop fork fails blocks 0 lpt0
  if r.2 then ((blocks.getLast?).map Blk.timestamp).getD r.1 else r.1

/-- Helper: when the loop ends with a throw, the loop value of
lastProcessedTimestamp is the initial value or the timestamp of a successfully
processed quote-chain block. -/
theorem blockLoop_fail_cases (fork fails : ℕ → Bool) :
    ∀ (blocks : List Blk) (i : ℕ) (lpt0 : ℤ),
      (blockLoop fork fails blocks i lpt0).2 = false →
      (blockLoop fork fails blocks i lpt0).1 = lpt0 ∨
      ∃ b ∈ processedBlocks fork fails blocks i, b.chainSymbol = Chain.quote ∧
        (blockLoop fork fails blocks i lpt0).1 = b.timestamp := by
  intro blocks
  induction blocks with
  | nil =>
    intro i lpt0 h
    simp [blockLoop] at h
  | cons b rest ih =>
    intro i lpt0 h
    by_cases hf : fork i
    · rw [blockLoop, if_pos hf] at h
      simp at h
    · by_cases he : fails i
      · rw [blockLoop, if_neg hf, if_pos he]
        left
        rfl
      · rw [blockLoop, if_neg hf, if_neg he] at h ⊢
        by_cases hq : b.chainSymbol = Chain.quote
        · rw [if_pos hq] at h ⊢
          have hrec := ih (i + 1) b.timestamp h
          rcases hrec with h1 | ⟨b2, hb2, hq2, ht2⟩
          · right
            refine ⟨b, ?_, hq, h1⟩
            rw [processedBlocks, if_neg hf, if_neg he]
            exact List.mem_cons_self b _
          · right
            refine ⟨b2, ?_, hq2, ht2⟩
            rw [processedBlocks, if_neg hf, if_neg he]
            exact List.mem_cons_of_mem b hb2
        · rw [if_neg hq] at h ⊢
          have hrec := ih (i + 1) lpt0 h
          rcases hrec with h1 | ⟨b2, hb2, hq2, ht2⟩
          · left
            exact h1
          · right
            refine ⟨b2, ?_, hq2, ht2⟩
            rw [processedBlocks, if_neg hf, if_neg he]
            exact List.mem_cons_of_mem b hb2

/-- Helper: when neither oracle ever fires, the loop finishes normally and
every block of the merged list is processed. -/
theorem blockLoop_all_ok (fork fails : ℕ → Bool)
    (hfork : ∀ j, fork j = false) (hfails : ∀ j, fails j = false) :
    ∀ (blocks : List Blk) (i : ℕ) (lpt0 : ℤ),
      processedBlocks fork fails blocks i = blocks ∧
      (blockLoop fork fails blocks i lpt0).2 = true := by
  intro blocks
  induction blocks with
  | nil =>
    intro i lpt0
    exact ⟨rfl, rfl⟩
  | cons b rest ih =>
    intro i lpt0
    rw [processedBlocks, blockLoop, if_neg (by simp [hfork]), if_neg (by simp [hfails]),
      if_neg (by simp [hfork]), if_neg (by simp [hfails])]
    have hrec := ih (i + 1) (if b.chainSymbol = Chain.quote then b.timestamp else lpt0)
    exact ⟨by rw [hrec.1], hrec.2⟩

/-- C3 counterexample: the claim states lastProcessedTimestamp is never set to
the timestamp of a block that was not successfully processed, including when
the remaining blocks are abandoned because the fork flag was set mid-tick.  In
the code the fork break only leaves the loop, and the tick then unconditionally
assigns lastProcessedTimestamp the final block's timestamp.  With a single
quote-chain block of timestamp 99 and the fork flag already set, no block is
processed yet lastProcessedTimestamp becomes 99 instead of staying 0. -/
theorem lastProcessedTimestamp_fork_counterexample :
    processTickLpt (fun _ => true) (fun _ => false)
      [{ chainSymbol := Chain.quote, height := 1, timestamp := 99 }] 0 = 99 ∧
    processedBlocks (fun _ => true) (fun _ => false)
      [{ chainSymbol := Chain.quote, height := 1, timestamp := 99 }] 0 = [] ∧
    (99 : ℤ) ≠ 0 := by
  refine ⟨rfl, rfl, by norm_num⟩

/-- C3 amended: during the loop lastProcessedTimestamp advances only after
successfully processed quote-chain blocks, and a thrown error returns from the
tick before the final assignment, so after a throw the value is the initial
value or the timestamp of a successfully processed quote-chain block; but
whenever the loop is left without a throw, including via the mid-tick fork
break, lastProcessedTimestamp is unconditionally set to the final block's
timestamp of the merged list even if that block was not processed.  When
neither a fork nor an error occurs, every block is processed and the final
value is the last (hence successfully processed) block's timestamp. -/
theorem lastProcessedTimestamp_amended (fork fails : ℕ → Bool) (blocks : List Blk)
    (lpt0 : ℤ) (hne : blocks ≠ []) :
    ((blockLoop fork fails blocks 0 lpt0).2 = false →
      processTickLpt fork fails blocks lpt0 = lpt0 ∨
      ∃ b ∈ processedBlocks fork fails blocks 0, b.chainSymbol = Chain.quote ∧
        processTickLpt fork fails blocks lpt0 = b.timestamp) ∧
    ((∀ j, fork j = false) → (∀ j, fails j = false) →
      processedBlocks fork fails blocks 0 = blocks ∧
      ∃ b, blocks.getLast? = some b ∧ processTickLpt fork fails blocks lpt0 = b.timestamp) := by
  constructor
  · intro h
    have hcases := blockLoop_fail_cases fork fails blocks 0 lpt0 h
    have hval : processTickLpt fork fails blocks lpt0 = (blockLoop fork fails blocks 0 lpt0).1 := by
      rw [processTickLpt]
      simp only [h]
      rfl
    rw [hval]
    exact hcases
  · intro hfork hfails
    have hall := blockLoop_all_ok fork fails hfork hfails blocks 0 lpt0
    refine ⟨hall.1, ?_⟩
    obtain ⟨b, hb⟩ := List.getLast?_isSome.mpr hne |> Option.isSome_iff_exists.mp
    refine ⟨b, hb, ?_⟩
    rw [processTickLpt]
    simp only [hall.2, if_true, hb]
    rfl

/-- Witness for the amended C3 theorem: with one base-chain and one quote-chain
block and no fork or error, both blocks are processed and
lastProcessedTimestamp ends at the quote block's timestamp 7. -/
theorem lastProcessedTimestamp_amended_witness :
    processedBlocks (fun _ => false) (fun _ => false)
      [{ chainSymbol := Chain.base, height := 1, timestamp := 4 },
       { chainSymbol := Chain.quote, height := 1, timestamp := 7 }] 0 =
      [{ chainSymbol := Chain.base, height := 1, timestamp := 4 },
       { chainSymbol := Chain.quote, height := 1, timestamp := 7 }] ∧
    processTickLpt (fun _ => false) (fun _ => false)
      [{ chainSymbol := Chain.base, height := 1, timestamp := 4 },
       { chainSymbol := Chain.quote, height := 1, timestamp := 7 }] 0 = 7 := by
  have h := (lastProcessedTimestamp_amended (fun _ => false) (fun _ => false)
    [{ chainSymbol := Chain.base, height := 1, timestamp := 4 },
     { chainSymbol := Chain.quote, height := 1, timestamp := 7 }] 0
    (by simp)).2 (fun _ => rfl) (fun _ => rfl)
  obtain ⟨h1, b, hb, ht⟩ := h
  refine ⟨h1, ?_⟩
  rw [ht]
  have : b = { chainSymbol := Chain.quote, height := 1, timestamp := 7 } := by
    simpa using hb.symm
  rw [this]

/-- The less-or-equal relation induced by the block comparator of
processBlockchains: earlier timestamp first, and on a timestamp tie the base
chain first. -/
def blockSortLe (a b : Blk) : Bool :=
  decide (a.timestamp < b.timestamp) ||
    (decide (a.timestamp = b.timestamp) && decide (a.chainSymbol = Chain.base))

/-- Embedding of the merge-and-trim step of processBlockchains: both fetched
slices must be nonempty, the quote-chain slice is filtered down to blocks whose
timestamp does not exceed the base chain's last-fetched block timestamp, the
filtered slice must be nonempty, and the concatenation is sorted by the block
comparator.  The base-chain slice is not filtered. -/
def mergeAndTrimBlocks (baseChainBlocks quoteChainBlocks : List Blk) : Option (List Blk) :=
  match baseChainBlocks.getLast?, quoteChainBlocks.getLast? with
  | some baseChainLastBlock, some _ =>
    match (quoteChainBlocks.filter
        (fun b => decide (b.timestamp ≤ baseChainLastBlock.timestamp))).getLast? with
    | none => none
    | some _ =>
      some (List.insertionSort (fun a b => blockSortLe a b = true)
        (baseChainBlocks ++ quoteChainBlocks.filter
          (fun b => decide (b.timestamp ≤ baseChainLastBlock.timestamp))))
  | _, _ => none

/-- C4 counterexample: the claim states the trimming is symmetric, so that no
block passed to the pipeline has a timestamp exceeding the other chain's
last-fetched block timestamp.  With one base-chain block at timestamp 10 and
one quote-chain block at timestamp 5, the base-chain block survives the merge
although its timestamp 10 exceeds the quote chain's last-fetched timestamp 5:
the code only trims the quote-chain slice. -/
theorem mergeTrim_base_untrimmed_counterexample :
    mergeAndTrimBlocks
        [{ chainSymbol := Chain.base, height := 1, timestamp := 10 }]
        [{ chainSymbol := Chain.quote, height := 1, timestamp := 5 }] =
      some [{ chainSymbol := Chain.quote, height := 1, timestamp := 5 },
            { chainSymbol := Chain.base, height := 1, timestamp := 10 }] ∧
    ([{ chainSymbol := Chain.quote, height := 1, timestamp := 5 }] : List Blk).getLast? =
      some { chainSymbol := Chain.quote, height := 1, timestamp := 5 } ∧
    { chainSymbol := Chain.base, height := 1, timestamp := 10 : Blk } ∈
      [{ chainSymbol := Chain.quote, height := 1, timestamp := 5 },
       { chainSymbol := Chain.base, height := 1, timestamp := 10 : Blk }] ∧
    (5 : ℤ) < 10 := by
  refine ⟨rfl, rfl, ?_, by norm_num⟩
  simp

/-- C4 amended: only the quote-chain slice is trimmed.  Every quote-chain block
in the merged list has a timestamp not exceeding the base chain's last-fetched
block timestamp; no symmetric guarantee holds for base-chain blocks.  The
hypothesis that every block of the base slice is tagged with the base chain
mirrors the tagging the source applies when fetching. -/
theorem mergeTrim_amended (baseChainBlocks quoteChainBlocks mergedList : List Blk)
    (hbase : ∀ b ∈ baseChainBlocks, b.chainSymbol = Chain.base)
    (hmerge : mergeAndTrimBlocks baseChainBlocks quoteChainBlocks = some mergedList) :
    ∃ bl, baseChainBlocks.getLast? = some bl ∧
      ∀ x ∈ mergedList, x.chainSymbol = Chain.quote → x.timestamp ≤ bl.timestamp := by
  rw [mergeAndTrimBlocks] at hmerge
  rcases hb : baseChainBlocks.getLast? with _ | bl
  · rw [hb] at hmerge
    rcases quoteChainBlocks.getLast? with _ | q0
    · exact Option.noConfusion hmerge
    · exact Option.noConfusion hmerge
  · rcases hq : quoteChainBlocks.getLast? with _ | q0
    · rw [hb, hq] at hmerge
      exact Option.noConfusion hmerge
    · rw [hb, hq] at hmerge
      dsimp only at hmerge
      refine ⟨bl, rfl, ?_⟩
      rcases hs : (quoteChainBlocks.filter
          (fun b => decide (b.timestamp ≤ bl.timestamp))).getLast? with _ | s0
      · rw [hs] at hmerge
        exact Option.noConfusion hmerge
      · rw [hs] at hmerge
        have hlist := Option.some.inj hmerge
        intro x hx hxq
        rw [← hlist] at hx
        have hx2 : x ∈ baseChainBlocks ++ quoteChainBlocks.filter
            (fun b => decide (b.timestamp ≤ bl.timestamp)) :=
          (List.perm_insertionSort _ _).mem_iff.mp hx
        rcases List.mem_append.mp hx2 with hxb | hxf
        · have := hbase x hxb
          rw [this] at hxq
          exact absurd hxq (by decide)
        · have := List.of_mem_filter hxf
          exact of_decide_eq_true this

/-- Witness for the amended C4 theorem: with base slice at timestamps 3 and 8
and quote slice at timestamps 5 and 9, the quote block at 9 is trimmed away and
every surviving quote block has timestamp at most 8. -/
theorem mergeTrim_amended_witness :
    ∃ bl, ([{ chainSymbol := Chain.base, height := 1, timestamp := 3 },
            { chainSymbol := Chain.base, height := 2, timestamp := 8 }] : List Blk).getLast? =
        some bl ∧
      ∀ x ∈ [{ chainSymbol := Chain.base, height := 1, timestamp := 3 : Blk },
             { chainSymbol := Chain.quote, height := 1, timestamp := 5 },
             { chainSymbol := Chain.base, height := 2, timestamp := 8 }],
        x.chainSymbol = Chain.quote → x.timestamp ≤ bl.timestamp :=
  mergeTrim_amended
    [{ chainSymbol := Chain.base, height := 1, timestamp := 3 },
     { chainSymbol := Chain.base, height := 2, timestamp := 8 }]
    [{ chainSymbol := Chain.quote, height := 1, timestamp := 5 },
     { chainSymbol := Chain.quote, height := 2, timestamp := 9 }]
    [{ chainSymbol := Chain.base, height := 1, timestamp := 3 },
     { chainSymbol := Chain.quote, height := 1, timestamp := 5 },
     { chainSymbol := Chain.base, height := 2, timestamp := 8 }]
    (by intro b hb; fin_cases hb <;> rfl)
    (by rfl)

/-- The signed transfer carried by a pending multisig entry: its id and the
accumulating list of member signatures. -/
structure MultisigTransaction where
  id : String
  signatures : List String
deriving DecidableEq

/-- One entry of the pendingTransfers registry. -/
structure PendingTransfer where
  transaction : MultisigTransaction
  targetChain : Chain
  processedSignatureSet : Finset String
  contributors : Finset String
  publicKey : String
  height : ℕ
  timestamp : ℤ
  isReady : Bool
deriving DecidableEq

/-- Embedding of verifySignature: the public key must belong to the multisig
wallet's member set and the cryptographic check (abstracted as the verifyData
oracle over the signature and public key, the hashed transaction being fixed
for the entry) must succeed. -/
def verifySignature (members : String → Bool) (verifyData : String → String → Bool)
    (publicKey signatureToVerify : String) : Bool :=
  members publicKey && verifyData signatureToVerify publicKey

/-- Embedding of processSignature acting on the looked-up entry: an unknown
transaction id, an already-processed signature, or a failed verification are
silently dropped with the entry unchanged; an accepted signature is appended to
the transaction's signature list, added to processedSignatureSet, the member
address is added to contributors, and isReady is set when the signature quota
(signature count minus requiredSignatureCount) is nonnegative.  The result
pairs the updated entry with the isAccepted flag. -/
def processSignature (members : String → Bool) (verifyData : String → String → Bool)
    (memberAddressOf : String → String) (requiredSignatureCount : ℤ)
    (entry : Option PendingTransfer) (signature publicKey : String) :
    Option PendingTransfer × Bool :=
  match entry with
  | none => (none, false)
  | some transactionData =>
    if signature ∈ transactionData.processedSignatureSet then (some transactionData, false)
    else if verifySignature members verifyData publicKey signature = false then
      (some transactionData, false)
    else
      let transaction := { transactionData.transaction with
        signatures := transactionData.transaction.signatures ++ [signature] }
      let signatureQuota : ℤ := (transaction.signatures.length : ℤ) - requiredSignatureCount
      (some { transactionData with
        transaction := transaction,
        processedSignatureSet := insert signature transactionData.processedSignatureSet,
        contributors := insert (memberAddressOf publicKey) transactionData.contributors,
        isReady := if signatureQuota ≥ 0 then true else transactionData.isReady }, true)

/-- Embedding of the registry insertion in execMultisigTransaction: the freshly
authored entry carries the node's own signature as the single element of both
the transaction's signature list and processedSignatureSet, and the node's own
wallet address as the single contributor. -/
def authorPendingTransfer (txnId multisigTxnSignature walletAddress : String)
    (targetChain : Chain) (publicKey : String) (height : ℕ) (now : ℤ) : PendingTransfer :=
  { transaction := { id := txnId, signatures := [multisigTxnSignature] }
    targetChain := targetChain
    processedSignatureSet := {multisigTxnSignature}
    contributors := {walletAddress}
    publicKey := publicKey
    height := height
    timestamp := now
    isReady := false }

/-- C6: for every pending transfer entry, the size of processedSignatureSet
equals the length of the transaction's signature list after any peer-signature
event: the authored entry starts with both equal to one, an event for an
unknown id changes nothing, and processing preserves the equality while a
rejected signature (duplicate, non-member or failed verification) leaves the
entry completely unchanged. -/
theorem processSignature_signature_count_invariant
    (members : String → Bool) (verifyData : String → String → Bool)
    (memberAddressOf : String → String) (requiredSignatureCount : ℤ)
    (txnId ownSignature ownAddress publicKey0 : String) (targetChain : Chain)
    (height : ℕ) (now : ℤ) (e : PendingTransfer) (signature publicKey : String)
    (hinv : e.processedSignatureSet.card = e.transaction.signatures.length) :
    ((authorPendingTransfer txnId ownSignature ownAddress targetChain publicKey0 height
        now).processedSignatureSet.card =
      (authorPendingTransfer txnId ownSignature ownAddress targetChain publicKey0 height
        now).transaction.signatures.length) ∧
    (processSignature members verifyData memberAddressOf requiredSignatureCount none
        signature publicKey = (none, false)) ∧
    (∃ e2, (processSignature members verifyData memberAddressOf requiredSignatureCount
          (some e) signature publicKey).1 = some e2 ∧
      e2.processedSignatureSet.card = e2.transaction.signatures.length ∧
      ((processSignature members verifyData memberAddressOf requiredSignatureCount
          (some e) signature publicKey).2 = false → e2 = e)) := by
  refine ⟨by simp [authorPendingTransfer], rfl, ?_⟩
  rw [processSignature]
  by_cases hdup : signature ∈ e.processedSignatureSet
  · rw [if_pos hdup]
    exact ⟨e, rfl, hinv, fun _ => rfl⟩
  · rw [if_neg hdup]
    by_cases hver : verifySignature members verifyData publicKey signature = false
    · rw [if_pos hver]
      exact ⟨e, rfl, hinv, fun _ => rfl⟩
    · rw [if_neg hver]
      refine ⟨_, rfl, ?_, ?_⟩
      · simp only [Finset.card_insert_of_not_mem hdup, List.length_append,
          List.length_singleton, hinv]
      · intro hfalse
        exact Bool.noConfusion hfalse

/-- Witness for the C6 theorem at a concrete entry satisfying the
precondition: the freshly authored entry has one processed signature and one
transaction signature. -/
theorem processSignature_signature_count_invariant_witness :
    (authorPendingTransfer "t1" "s0" "a0" Chain.base "pk0" 5
        100).processedSignatureSet.card =
      (authorPendingTransfer "t1" "s0" "a0" Chain.base "pk0" 5
        100).transaction.signatures.length :=
  (processSignature_signature_count_invariant (fun _ => true) (fun _ _ => true)
    (fun pk => pk) 2 "t1" "s0" "a0" "pk0" Chain.base 5 100
    (authorPendingTransfer "t1" "s0" "a0" Chain.base "pk0" 5 100) "s1" "pk1"
    (by simp [authorPendingTransfer])).1

/-- Embedding of the head scan of expireMultisigTransactions: entries are
deleted from the front of the registry while the elapsed time since their
insertion reaches multisigExpiry, and the scan breaks at the first younger
entry.  The registry is the insertion-ordered entry list of the pendingTransfers
map. -/
def expireMultisigTransactions (now multisigExpiry : ℤ) :
    List (String × PendingTransfer) → List (String × PendingTransfer)
  | [] => []
  | (txnId, txnData) :: rest =>
    if now - txnData.timestamp < multisigExpiry then (txnId, txnData) :: rest
    else expireMultisigTransactions now multisigExpiry rest

/-- A JavaScript Map set: an existing key is updated in place, a new key is
appended at the end of the iteration order. -/
def jsMapSet (pendingTransfers : List (String × PendingTransfer)) (k : String)
    (v : PendingTransfer) : List (String × PendingTransfer) :=
  if pendingTransfers.any (fun p => p.1 = k) then
    pendingTransfers.map (fun p => if p.1 = k then (k, v) else p)
  else pendingTransfers ++ [(k, v)]

/-- Embedding of the insertion step of execMultisigTransaction: when the map
already holds the transaction id the existing entry is deleted first, so that
the re-inserted entry is appended at the end of the queue (a Map holds at most
one entry per key, so the delete is the removal of the key's entry). -/
def putPendingTransfer (pendingTransfers : List (String × PendingTransfer)) (k : String)
    (v : PendingTransfer) : List (String × PendingTransfer) :=
  jsMapSet
    (if pendingTransfers.any (fun p => p.1 = k) then
      pendingTransfers.filter (fun p => ¬ p.1 = k)
    else pendingTransfers) k v

/-- Helper: removing every entry with a given key leaves a list with no entry
with that key. -/
theorem filter_key_removed (m : List (String × PendingTransfer)) (k : String) :
    (m.filter (fun p => ¬ p.1 = k)).any (fun p => p.1 = k) = false := by
  rw [Bool.eq_false_iff]
  intro h
  obtain ⟨p, hp, hk⟩ := List.any_eq_true.mp h
  have := List.of_mem_filter hp
  simp only [decide_not] at this
  rw [of_decide_eq_true hk] at this
  simp at this

/-- Helper: when no entry has the key, the key-removing filter is the
identity. -/
theorem filter_key_absent (m : List (String × PendingTransfer)) (k : String)
    (h : m.any (fun p => p.1 = k) = false) :
    m.filter (fun p => ¬ p.1 = k) = m := by
  apply List.filter_eq_self.mpr
  intro p hp
  have hne : ¬ (p.1 = k) := by
    intro hk
    have : m.any (fun p => p.1 = k) = true := List.any_eq_true.mpr ⟨p, hp, decide_eq_true hk⟩
    rw [h] at this
    exact Bool.noConfusion this
  simpa using hne

/-- C7: the registry iterates in insertion order (it is modelled as the
insertion-ordered entry list of the map), expiry removes exactly a prefix of
entries whose age reaches multisigExpiry and stops at the first younger entry,
leaving the remaining entries and their relative order unchanged, and
re-authoring an id removes the old entry before appending so the result is
always the id-purged list with the new entry at the end. -/
theorem registry_expiry_fifo (now multisigExpiry : ℤ)
    (m : List (String × PendingTransfer)) (k : String) (v : PendingTransfer) :
    (∃ pre, m = pre ++ expireMultisigTransactions now multisigExpiry m ∧
      ∀ p ∈ pre, multisigExpiry ≤ now - p.2.timestamp) ∧
    (∀ q rest, expireMultisigTransactions now multisigExpiry m = q :: rest →
      now - q.2.timestamp < multisigExpiry) ∧
    putPendingTransfer m k v = m.filter (fun p => ¬ p.1 = k) ++ [(k, v)] := by
  refine ⟨?_, ?_, ?_⟩
  · induction m with
    | nil => exact ⟨[], rfl, by simp⟩
    | cons hd tl ih =>
      by_cases hy : now - hd.2.timestamp < multisigExpiry
      · refine ⟨[], ?_, by simp⟩
        rw [expireMultisigTransactions.eq_def]
        simp only [if_pos hy]
        simp
      · obtain ⟨pre, hpre, hold⟩ := ih
        refine ⟨hd :: pre, ?_, ?_⟩
        · rw [expireMultisigTransactions.eq_def]
          simp only [if_neg hy]
          rw [List.cons_append, ← hpre]
        · intro p hp
          rcases List.mem_cons.mp hp with h1 | h2
          · rw [h1]
            exact le_of_not_lt hy
          · exact hold p h2
  · induction m with
    | nil =>
      intro q rest h
      exact List.noConfusion h
    | cons hd tl ih =>
      intro q rest h
      rw [expireMultisigTransactions.eq_def] at h
      by_cases hy : now - hd.2.timestamp < multisigExpiry
      · simp only [if_pos hy] at h
        rw [← (List.cons.inj h).1]
        exact hy
      · simp only [if_neg hy] at h
        exact ih q rest h
  · rw [putPendingTransfer]
    by_cases hk : m.any (fun p => p.1 = k) = true
    · rw [if_pos hk, jsMapSet, if_neg (by rw [filter_key_removed]; exact Bool.false_ne_true)]
    · rw [if_neg hk, jsMapSet, if_neg hk,
        filter_key_absent m k (Bool.eq_false_iff.mpr hk)]

/-- Witness for the C7 theorem on a concrete registry: the entry aged 50 at the
head expires, the scan stops at the younger entry (whose age is negative), and
re-authoring the surviving id purges it and appends the new entry at the
end. -/
theorem registry_expiry_fifo_witness :
    (50 : ℤ) - 100 < 30 ∧
    putPendingTransfer
        [("a", authorPendingTransfer "a" "s0" "w0" Chain.base "pk0" 1 0),
         ("b", authorPendingTransfer "b" "s1" "w1" Chain.base "pk1" 2 100)] "b"
        (authorPendingTransfer "b" "s2" "w2" Chain.base "pk2" 3 200) =
      [("a", authorPendingTransfer "a" "s0" "w0" Chain.base "pk0" 1 0),
       ("b", authorPendingTransfer "b" "s2" "w2" Chain.base "pk2" 3 200)] := by
  have h := registry_expiry_fifo 50 30
    [("a", authorPendingTransfer "a" "s0" "w0" Chain.base "pk0" 1 0),
     ("b", authorPendingTransfer "b" "s1" "w1" Chain.base "pk1" 2 100)] "b"
    (authorPendingTransfer "b" "s2" "w2" Chain.base "pk2" 3 200)
  refine ⟨?_, ?_⟩
  · exact h.2.1 ("b", authorPendingTransfer "b" "s1" "w1" Chain.base "pk1" 2 100) [] (by rfl)
  · rw [h.2.2]
    rfl

/-- An item yielded by a source iterator of the query API: its cursor id and
its stringified attribute lookup (the filter comparison stringifies both
sides). -/
structure QItem where
  id : String
  attrs : String → String

/-- A query against one of the API actions; absent parameters are none and the
custom filter is the list of remaining field-value pairs. -/
structure DexQuery where
  after : Option String
  before : Option String
  limit : Option ℤ
  sort : Option String
  filterMap : List (String × String)

/-- The configuration options the query API reads. -/
structure ApiOptions where
  apiMaxFilterFields : ℤ
  apiDefaultPageLimit : ℤ
  apiMaxPageLimit : ℤ

/-- An error thrown by the query API, carrying the JavaScript error name. -/
structure JsError where
  name : String
  message : String
deriving DecidableEq

/-- JavaScript truthiness of an optional string parameter: absent or empty is
falsy. -/
def optTruthy : Option String → Bool
  | none => false
  | some s => decide (s ≠ "")

/-- The sort parameter split at the first colon: the sort field and the
optional order token (absent sort behaves as the empty string, whose split
yields an empty field and no order token). -/
def parseSort : Option String → String × Option String
  | none => ("", none)
  | some s => ((s.splitOn ":").headD "", (s.splitOn ":")[1]?)

/-- An order token other than asc or desc is invalid (an absent token is
fine). -/
def invalidSortOrder : Option String → Bool
  | none => false
  | some s => if s = "asc" then false else if s = "desc" then false else true

/-- Numeric sort order: minus one for desc, plus one otherwise. -/
def sortOrderOf (sortOrderString : Option String) : ℤ :=
  if sortOrderString = some "desc" then -1 else 1

/-- The limit after defaulting: an absent limit becomes apiDefaultPageLimit. -/
def defaultedLimit (opts : ApiOptions) (query : DexQuery) : ℤ :=
  match query.limit with
  | none => opts.apiDefaultPageLimit
  | some l => l

/-- The comparator of the optional sort pass, as a less-or-equal relation: the
JavaScript comparator returns sortOrder when the first field value is greater,
minus sortOrder when smaller, and zero on equality. -/
def sortComparatorLe (sortField : String) (sortOrder : ℤ) (a b : QItem) : Bool :=
  if a.attrs sortField = b.attrs sortField then true
  else if compare (a.attrs sortField) (b.attrs sortField) = Ordering.gt then
    decide (sortOrder ≤ 0)
  else decide (-sortOrder ≤ 0)

/-- The iterator actually scanned: the source list itself, or, when a sort
field is present, the list sorted by the comparator. -/
def queryIterator (sortField : String) (sortOrder : ℤ) (sourceIterator : List QItem) :
    List QItem :=
  if sortField = "" then sourceIterator
  else List.insertionSort (fun a b => sortComparatorLe sortField sortOrder a b = true)
    sourceIterator

/-- An item matches the custom filter when each filter field's stringified
attribute equals the stringified filter value. -/
def itemMatchesFilter (filterMap : List (String × String)) (item : QItem) : Bool :=
  filterMap.all (fun f => item.attrs f.1 = f.2)

/-- The after-cursor capture loop: items are skipped until the cursor id is
seen, subsequent filtered items are captured, and the loop breaks as soon as
the captured count reaches the limit. -/
def afterSearch (filterOk : QItem → Bool) (afterId : String) (limit : ℤ) :
    List QItem → Bool → List QItem → List QItem
  | [], _, result => result
  | item :: rest, isCapturing, result =>
    if isCapturing then
      if filterOk item then
        if ((result ++ [item]).length : ℤ) ≥ limit then result ++ [item]
        else afterSearch filterOk afterId limit rest isCapturing (result ++ [item])
      else
        if ((result).length : ℤ) ≥ limit then result
        else afterSearch filterOk afterId limit rest isCapturing result
    else if item.id = afterId then
      if ((result).length : ℤ) ≥ limit then result
      else afterSearch filterOk afterId limit rest true result
    else
      if ((result).length : ℤ) ≥ limit then result
      else afterSearch filterOk afterId limit rest isCapturing result

/-- The before-cursor capture loop: filtered items preceding the cursor id are
accumulated, and when the cursor id is found the result is the last limit
accumulated items; when the cursor id never appears the initial empty result
is returned. -/
def beforeSearch (filterOk : QItem → Bool) (beforeId : String) (limit : ℤ) :
    List QItem → List QItem → List QItem
  | [], _ => []
  | item :: rest, previousItems =>
    if item.id = beforeId then
      previousItems.drop (max ((previousItems.length : ℤ) - limit) 0).toNat
    else if filterOk item then
      beforeSearch filterOk beforeId limit rest (previousItems ++ [item])
    else beforeSearch filterOk beforeId limit rest previousItems

/-- The cursorless capture loop: filtered items are captured until the
captured count reaches the limit. -/
def plainSearch (filterOk : QItem → Bool) (limit : ℤ) :
    List QItem → List QItem → List QItem
  | [], result => result
  | item :: rest, result =>
    if filterOk item then
      if ((result ++ [item]).length : ℤ) ≥ limit then result ++ [item]
      else plainSearch filterOk limit rest (result ++ [item])
    else
      if ((result).length : ℤ) ≥ limit then result
      else plainSearch filterOk limit rest result

/-- Embedding of execQueryAgainstIterator: the custom-filter-field count is
validated first, then the defaulted limit against apiMaxPageLimit, then the
sort order token; each violation throws an error named InvalidQueryError
before any item is captured.  The surviving query runs one of the three
capture loops over the (possibly sorted) iterator. -/
def execQueryAgainstIterator (opts : ApiOptions) (query : DexQuery)
    (sourceIterator : List QItem) : Except JsError (List QItem) :=
  if ((query.filterMap.map Prod.fst).length : ℤ) > opts.apiMaxFilterFields then
    Except.error ⟨"InvalidQueryError", "Too many custom filter fields were specified in the query"⟩
  else if defaultedLimit opts query > opts.apiMaxPageLimit then
    Except.error ⟨"InvalidQueryError", "The limit parameter of the query cannot be greater than the maximum"⟩
  else if invalidSortOrder (parseSort query.sort).2 then
    Except.error ⟨"InvalidQueryError", "If specified, the sort order must be either asc or desc"⟩
  else if optTruthy query.after then
    Except.ok (afterSearch (itemMatchesFilter query.filterMap) (query.after.getD "")
      (defaultedLimit opts query)
      (queryIterator (parseSort query.sort).1 (sortOrderOf (parseSort query.sort).2)
        sourceIterator) false [])
  else if optTruthy query.before then
    Except.ok (beforeSearch (itemMatchesFilter query.filterMap) (query.before.getD "")
      (defaultedLimit opts query)
      (queryIterator (parseSort query.sort).1 (sortOrderOf (parseSort query.sort).2)
        sourceIterator) [])
  else
    Except.ok (plainSearch (itemMatchesFilter query.filterMap)
      (defaultedLimit opts query)
      (queryIterator (parseSort query.sort).1 (sortOrderOf (parseSort query.sort).2)
        sourceIterator) [])

/-- C8: the query validation of execQueryAgainstIterator.  An absent limit is
set to apiDefaultPageLimit (the query behaves exactly as if that limit had
been passed); a limit greater than apiMaxPageLimit yields an error named
InvalidQueryError; more than apiMaxFilterFields custom filter fields yields an
error named InvalidQueryError; every such error is returned instead of a
result list, so no items are captured. -/
theorem execQuery_validation (opts : ApiOptions) (query : DexQuery)
    (sourceIterator : List QItem) :
    (query.limit = none →
      execQueryAgainstIterator opts query sourceIterator =
        execQueryAgainstIterator opts { query with limit := some opts.apiDefaultPageLimit }
          sourceIterator) ∧
    (∀ l, query.limit = some l → l > opts.apiMaxPageLimit →
      ∃ e, execQueryAgainstIterator opts query sourceIterator = Except.error e ∧
        e.name = "InvalidQueryError") ∧
    (((query.filterMap.length : ℤ) > opts.apiMaxFilterFields) →
      ∃ e, execQueryAgainstIterator opts query sourceIterator = Except.error e ∧
        e.name = "InvalidQueryError") := by
  refine ⟨?_, ?_, ?_⟩
  · intro hnone
    have hdef : defaultedLimit opts { query with limit := some opts.apiDefaultPageLimit } =
        defaultedLimit opts query := by
      rw [defaultedLimit, defaultedLimit, hnone]
    rw [execQueryAgainstIterator, execQueryAgainstIterator, hdef]
  · intro l hl hgt
    have hdef : defaultedLimit opts query = l := by
      rw [defaultedLimit, hl]
    rw [execQueryAgainstIterator]
    by_cases hf : ((query.filterMap.map Prod.fst).length : ℤ) > opts.apiMaxFilterFields
    · rw [if_pos hf]
      exact ⟨_, rfl, rfl⟩
    · rw [if_neg hf, if_pos (by rw [hdef]; exact hgt)]
      exact ⟨_, rfl, rfl⟩
  · intro hf
    rw [execQueryAgainstIterator, if_pos (by rw [List.length_map]; exact hf)]
    exact ⟨_, rfl, rfl⟩

/-- A concrete configuration for the query-API witnesses: at most one custom
filter field, default page limit 10, maximum page limit 100. -/
def apiOptsOneFilter : ApiOptions := ⟨1, 10, 100⟩

/-- A concrete query with two custom filter fields and nothing else. -/
def queryTwoFilters : DexQuery := ⟨none, none, none, none, [("x", "1"), ("y", "2")]⟩

/-- A concrete query with every parameter absent. -/
def queryNoLimit : DexQuery := ⟨none, none, none, none, []⟩

/-- The same query with the default page limit 10 passed explicitly. -/
def queryDefaultLimit : DexQuery := ⟨none, none, some 10, none, []⟩

/-- Witness for the C8 theorem: a query with two filter fields against a
maximum of one yields an error named InvalidQueryError, and an absent limit
makes the query behave as a query with the default limit. -/
theorem execQuery_validation_witness :
    (∃ e, execQueryAgainstIterator apiOptsOneFilter queryTwoFilters [] = Except.error e ∧
      e.name = "InvalidQueryError") ∧
    execQueryAgainstIterator apiOptsOneFilter queryNoLimit [] =
      execQueryAgainstIterator apiOptsOneFilter queryDefaultLimit [] := by
  constructor
  · exact (execQuery_validation apiOptsOneFilter queryTwoFilters []).2.2
      (by norm_num [apiOptsOneFilter, queryTwoFilters])
  · exact (execQuery_validation apiOptsOneFilter queryNoLimit []).1 rfl

/-- Helper: when no item of the iterator carries the cursor id, the
after-capture loop started in the skipping state with an empty result returns
the empty list. -/
theorem afterSearch_no_match (filterOk : QItem → Bool) (afterId : String) (limit : ℤ) :
    ∀ iterator : List QItem, (∀ it ∈ iterator, it.id ≠ afterId) →
      afterSearch filterOk afterId limit iterator false [] = [] := by
  intro iterator
  induction iterator with
  | nil =>
    intro _
    rfl
  | cons item rest ih =>
    intro hno
    rw [afterSearch]
    simp only [Bool.false_eq_true, if_false]
    rw [if_neg (hno item (List.mem_cons_self item rest))]
    by_cases hl : (([] : List QItem).length : ℤ) ≥ limit
    · rw [if_pos hl]
    · rw [if_neg hl]
      exact ih (fun it hit => hno it (List.mem_cons_of_mem item hit))

/-- Helper: when no item of the iterator carries the cursor id, the
before-capture loop returns the empty list whatever has been accumulated. -/
theorem beforeSearch_no_match (filterOk : QItem → Bool) (beforeId : String) (limit : ℤ) :
    ∀ (iterator previousItems : List QItem), (∀ it ∈ iterator, it.id ≠ beforeId) →
      beforeSearch filterOk beforeId limit iterator previousItems = [] := by
  intro iterator
  induction iterator with
  | nil =>
    intro _ _
    rfl
  | cons item rest ih =>
    intro previousItems hno
    rw [beforeSearch]
    rw [if_neg (hno item (List.mem_cons_self item rest))]
    by_cases hfo : filterOk item = true
    · rw [if_pos hfo]
      exact ih _ (fun it hit => hno it (List.mem_cons_of_mem item hit))
    · rw [if_neg hfo]
      exact ih _ (fun it hit => hno it (List.mem_cons_of_mem item hit))

/-- Helper: membership in the scanned iterator coincides with membership in
the source iterator (a sort pass only permutes). -/
theorem mem_queryIterator (sortField : String) (sortOrder : ℤ)
    (sourceIterator : List QItem) (x : QItem) :
    x ∈ queryIterator sortField sortOrder sourceIterator ↔ x ∈ sourceIterator := by
  rw [queryIterator]
  by_cases hs : sortField = ""
  · rw [if_pos hs]
  · rw [if_neg hs]
    exact (List.perm_insertionSort _ sourceIterator).mem_iff

/-- C10: a cursor query whose cursor id matches no item returns the empty
list: with after, capturing never starts; with before, the accumulated
preceding items are discarded because the result is only assigned when the
cursor id is found. -/
theorem execQuery_missing_cursor_empty (opts : ApiOptions) (query : DexQuery)
    (sourceIterator : List QItem) (result : List QItem) :
    (optTruthy query.after = true →
      (∀ it ∈ sourceIterator, it.id ≠ query.after.getD "") →
      execQueryAgainstIterator opts query sourceIterator = Except.ok result →
      result = []) ∧
    (optTruthy query.after = false → optTruthy query.before = true →
      (∀ it ∈ sourceIterator, it.id ≠ query.before.getD "") →
      execQueryAgainstIterator opts query sourceIterator = Except.ok result →
      result = []) := by
  constructor
  · intro ha hno hok
    rw [execQueryAgainstIterator] at hok
    by_cases h1 : ((query.filterMap.map Prod.fst).length : ℤ) > opts.apiMaxFilterFields
    · rw [if_pos h1] at hok
      exact Except.noConfusion hok
    · rw [if_neg h1] at hok
      by_cases h2 : defaultedLimit opts query > opts.apiMaxPageLimit
      · rw [if_pos h2] at hok
        exact Except.noConfusion hok
      · rw [if_neg h2] at hok
        by_cases h3 : invalidSortOrder (parseSort query.sort).2 = true
        · rw [if_pos h3] at hok
          exact Except.noConfusion hok
        · rw [if_neg h3, if_pos ha] at hok
          have hres := Except.ok.inj hok
          rw [← hres]
          apply afterSearch_no_match
          intro it hit
          exact hno it ((mem_queryIterator _ _ _ it).mp hit)
  · intro ha hb hno hok
    rw [execQueryAgainstIterator] at hok
    by_cases h1 : ((query.filterMap.map Prod.fst).length : ℤ) > opts.apiMaxFilterFields
    · rw [if_pos h1] at hok
      exact Except.noConfusion hok
    · rw [if_neg h1] at hok
      by_cases h2 : defaultedLimit opts query > opts.apiMaxPageLimit
      · rw [if_pos h2] at hok
        exact Except.noConfusion hok
      · rw [if_neg h2] at hok
        by_cases h3 : invalidSortOrder (parseSort query.sort).2 = true
        · rw [if_pos h3] at hok
          exact Except.noConfusion hok
        · rw [if_neg h3, if_neg (by rw [ha]; exact Bool.false_ne_true), if_pos hb] at hok
          have hres := Except.ok.inj hok
          rw [← hres]
          apply beforeSearch_no_match
          intro it hit
          exact hno it ((mem_queryIterator _ _ _ it).mp hit)

/-- A concrete configuration for the missing-cursor witness. -/
def apiOptsFiveFilters : ApiOptions := ⟨5, 10, 100⟩

/-- A concrete query with an after cursor naming an id absent from the
iterator below. -/
def queryAfterZZ : DexQuery := ⟨some "zz", none, some 10, none, []⟩

/-- The single item of the witness iterator; its id is x, not zz. -/
def itemX : QItem := ⟨"x", fun _ => ""⟩

/-- Witness for the C10 theorem: an after cursor naming an id absent from a
one-item iterator returns the empty list. -/
theorem execQuery_missing_cursor_empty_witness :
    execQueryAgainstIterator apiOptsFiveFilters queryAfterZZ [itemX] = Except.ok [] := by
  have h := (execQuery_missing_cursor_empty apiOptsFiveFilters queryAfterZZ [itemX]
    (afterSearch (itemMatchesFilter []) "zz" 10 (queryIterator "" 1 [itemX]) false [])).1 rfl
    (by
      intro it hit
      have h2 : it = itemX := by simpa using hit
      rw [h2]
      decide)
    rfl
  have hok : execQueryAgainstIterator apiOptsFiveFilters queryAfterZZ [itemX] =
      Except.ok (afterSearch (itemMatchesFilter []) "zz" 10 (queryIterator "" 1 [itemX])
        false []) := rfl
  rw [hok, h]

/-- One member dividend as produced by the dividend function: a wallet address
and an amount. -/
structure Dividend where
  walletAddress : String
  amount : ℚ
deriving DecidableEq

/-- A d1 dividend payout transaction as handed to execMultisigTransaction. -/
structure DividendTxn where
  amount : ℚ
  recipientId : String
  height : ℕ
  timestamp : ℤ
deriving DecidableEq

/-- Embedding of the default dividendFunction: each member's payable
contribution is the tallied contribution times dividendRate, and the dividend
is the floor of that times exchangeFeeRate divided by the member count. -/
def dividendFunction (contributionData : List (String × ℚ))
    (dividendRate exchangeFeeRate memberCount : ℚ) : List Dividend :=
  contributionData.map (fun w =>
    { walletAddress := w.1,
      amount := ((Int.floor (w.2 * dividendRate * exchangeFeeRate / memberCount) : ℤ) : ℚ) })

/-- Embedding of the dividend authoring loop of the dividend processor: for
every dividend of the list, a d1 transaction is authored whose amount is the
dividend amount minus the chain's exchangeFeeBase, with no positivity guard. -/
def authorDividendTxns (dividendList : List Dividend) (exchangeFeeBase : ℚ)
    (chainHeight : ℕ) (latestBlockTimestamp : ℤ) : List DividendTxn :=
  dividendList.map (fun dividend =>
    { amount := dividend.amount - exchangeFeeBase,
      recipientId := dividend.walletAddress,
      height := chainHeight,
      timestamp := latestBlockTimestamp })

/-- Embedding of execRefundTransaction, for contrast: the floored refund
amount minus the exchangeFeeBase is checked, and no refund transaction is
authored when it is nonpositive (the source throws). -/
def execRefundTransaction (sourceChainAmount : ℚ) (exchangeFeeBase : ℤ)
    (recipientId : String) (height : ℕ) (timestamp : ℤ) : Option DividendTxn :=
  if Int.floor sourceChainAmount - exchangeFeeBase ≤ 0 then none
  else some
    { amount := ((Int.floor sourceChainAmount - exchangeFeeBase : ℤ) : ℚ),
      recipientId := recipientId,
      height := height,
      timestamp := timestamp }

/-- C9: every member dividend produces exactly one authored d1 transaction
whose amount is the dividend function's output for that member minus the
chain's exchangeFeeBase, even when that difference is zero or negative: the
authored list has the same length as the dividend list and contains the
fee-reduced transaction of every dividend, with no positivity guard — unlike
refunds, which are dropped when the fee-reduced amount is nonpositive. -/
theorem dividend_no_positivity_guard (dividendList : List Dividend) (exchangeFeeBase : ℚ)
    (chainHeight : ℕ) (latestBlockTimestamp : ℤ) :
    (authorDividendTxns dividendList exchangeFeeBase chainHeight
        latestBlockTimestamp).length = dividendList.length ∧
    (∀ d ∈ dividendList,
      ({ amount := d.amount - exchangeFeeBase, recipientId := d.walletAddress,
         height := chainHeight, timestamp := latestBlockTimestamp } : DividendTxn) ∈
        authorDividendTxns dividendList exchangeFeeBase chainHeight latestBlockTimestamp) ∧
    (∀ (a : ℚ) (fb : ℤ) (r : String), Int.floor a - fb ≤ 0 →
      execRefundTransaction a fb r chainHeight latestBlockTimestamp = none) := by
  refine ⟨List.length_map _ _, ?_, ?_⟩
  · intro d hd
    exact List.mem_map_of_mem _ hd
  · intro a fb r hle
    rw [execRefundTransaction, if_pos hle]

/-- Witness for the C9 theorem: a dividend of 5 against a fee base of 10 still
authors a transaction, of negative amount minus 5, while the analogous refund
is dropped. -/
theorem dividend_no_positivity_guard_witness :
    ({ amount := -5, recipientId := "w", height := 7, timestamp := 3 } : DividendTxn) ∈
      authorDividendTxns [{ walletAddress := "w", amount := 5 }] 10 7 3 ∧
    execRefundTransaction 5 10 "w" 7 3 = none := by
  have h := dividend_no_positivity_guard [{ walletAddress := "w", amount := 5 }] 10 7 3
  constructor
  · have hm := h.2.1 { walletAddress := "w", amount := 5 } (List.mem_cons_self _ _)
    have heq : (⟨(5 : ℚ) - 10, "w", 7, 3⟩ : DividendTxn) =
        (⟨-5, "w", 7, 3⟩ : DividendTxn) := by
      norm_num
    rw [← heq]
    exact hm
  · exact h.2.2 5 10 "w" (by norm_num)

end LiskDex
